import Mathlib

/-!
Verification of the FoxNose TypeScript SDK HTTP transport core and its
peripheral operations, as a shallow embedding in Lean.

Conventions of the embedding:
* JavaScript numbers are modelled as exact rationals.
* Host-library functions that the source delegates to (JSON.parse,
  JSON.stringify, TextEncoder) are taken as explicit function parameters of
  the embedded definitions; concrete instances standing for their behaviour
  on the inputs at hand are supplied in closed theorems.
* JavaScript method-name uppercasing is modelled by an ASCII character map,
  which agrees with String.prototype.toUpperCase on HTTP method strings.
* Thrown exceptions are modelled with Except or explicit error-carrying
  result types; the absence of a thrown exception is a total function.
-/

namespace Foxnose

/-- Model of a JavaScript JSON value (the possible results of JSON.parse). -/
inductive JsVal where
  | null
  | bool (b : Bool)
  | num (q : ℚ)
  | str (s : String)
  | arr (elems : List JsVal)
  | obj (fields : List (String × JsVal))

/-- Discriminator for the JSON null value. -/
def JsVal.isNull : JsVal → Bool
  | .null => true
  | _ => false

/-- Model of String.prototype.toUpperCase restricted to ASCII, which is all
HTTP method strings use. -/
def jsToUpper (s : String) : String := ⟨s.data.map Char.toUpper⟩

/-- RetryConfig from config.ts: attempts, backoffFactor, statusCodes, methods. -/
structure RetryConfig where
  attempts : Nat
  backoffFactor : ℚ
  statusCodes : List Nat
  methods : List String

/-- DEFAULT_RETRY_CONFIG from config.ts. -/
def DEFAULT_RETRY_CONFIG : RetryConfig :=
  ⟨3, 1/2, [408, 425, 429, 500, 502, 503, 504], ["GET", "HEAD", "OPTIONS", "PUT", "DELETE"]⟩

/-- Digit list to natural number, most significant first. -/
def digitsToNat (ds : List Char) : Nat :=
  ds.foldl (fun n c => 10 * n + (c.toNat - 48)) 0

/-- The digits of a decimal floating-point literal, as read by the host
parseFloat: sign, integer digits, fraction digits (with their count, to keep
leading zeros), exponent sign and magnitude. -/
structure ParsedFloat where
  neg : Bool
  intPart : Nat
  fracPart : Nat
  fracLen : Nat
  expNeg : Bool
  expMag : Nat
deriving DecidableEq, Repr

/-- The syntactic part of the host parseFloat on finite decimal inputs: skip
leading whitespace, optional sign, decimal digits with an optional fraction
and an optional exponent; `none` stands for NaN (no parseable numeric
prefix). A malformed exponent suffix is ignored, as the host does when it
takes the longest valid literal prefix. The special literal Infinity, which
parseFloat also accepts, is outside the rational model and is not produced
by any input considered in this file. -/
def parseFloatSyntax (s : String) : Option ParsedFloat :=
  let cs0 := s.data.dropWhile (fun c => c = ' ' ∨ c = '\t' ∨ c = '\n' ∨ c = '\r')
  let signed : Bool × List Char :=
    match cs0 with
    | '-' :: rest => (true, rest)
    | '+' :: rest => (false, rest)
    | _ => (false, cs0)
  let cs := signed.2
  let intDs := cs.takeWhile Char.isDigit
  let cs1 := cs.dropWhile Char.isDigit
  let fracPair : List Char × List Char :=
    match cs1 with
    | '.' :: rest => (rest.takeWhile Char.isDigit, rest.dropWhile Char.isDigit)
    | _ => ([], cs1)
  let fracDs := fracPair.1
  if intDs.isEmpty ∧ fracDs.isEmpty then none
  else
    let expPart : Bool × Nat :=
      match fracPair.2 with
      | 'e' :: rest | 'E' :: rest =>
        let esigned : Bool × List Char :=
          match rest with
          | '-' :: r => (true, r)
          | '+' :: r => (false, r)
          | _ => (false, rest)
        let eDs := esigned.2.takeWhile Char.isDigit
        if eDs.isEmpty then (false, 0) else (esigned.1, digitsToNat eDs)
      | _ => (false, 0)
    some ⟨signed.1, digitsToNat intDs, digitsToNat fracDs, fracDs.length, expPart.1, expPart.2⟩

/-- The rational value denoted by a parsed decimal literal. -/
def ParsedFloat.val (p : ParsedFloat) : ℚ :=
  let mant : ℚ := (p.intPart : ℚ) + (p.fracPart : ℚ) / (10 ^ p.fracLen : ℚ)
  let scaled : ℚ := if p.expNeg then mant / 10 ^ p.expMag else mant * 10 ^ p.expMag
  if p.neg then -scaled else scaled

/-- Model of the host parseFloat: the value of the longest decimal literal
prefix, or `none` for NaN. -/
def jsParseFloat (s : String) : Option ℚ :=
  (parseFloatSyntax s).map ParsedFloat.val

/-- The exponential backoff term of HttpTransport.computeDelay:
backoffFactor * 2 ^ max(attempt - 1, 0) * 1000; natural-number subtraction
realises the max with 0. -/
def backoffDelay (rc : RetryConfig) (attempt : Nat) : ℚ :=
  rc.backoffFactor * 2 ^ (attempt - 1) * 1000

/-- HttpTransport.computeDelay. The retryAfter argument is the value of
headers.get, with none for an absent header; the source tests it for
JavaScript truthiness, so an empty string behaves like an absent header. -/
def computeDelay (rc : RetryConfig) (attempt : Nat) (retryAfter : Option String) : ℚ :=
  match retryAfter with
  | some s =>
    if s ≠ "" then
      match jsParseFloat s with
      | some v => v * 1000
      | none => 0
    else backoffDelay rc attempt
  | none => backoffDelay rc attempt

/-- HttpTransport.shouldRetry: the incoming method is uppercased, the policy
entries are compared verbatim. -/
def shouldRetry (rc : RetryConfig) (method : String) (statusCode : Nat) : Bool :=
  if !(rc.methods.contains (jsToUpper method)) then
    false
  else
    rc.statusCodes.contains statusCode

/-- The canRetry test of HttpTransport.handleTransportError. -/
def canRetryTransport (rc : RetryConfig) (method : String) (attempt : Nat) : Bool :=
  rc.methods.contains (jsToUpper method) && decide (attempt < rc.attempts)

/-- HttpTransport.handleTransportError: rethrow as a transport error when the
method is not retry-eligible or attempts are exhausted, otherwise return the
backoff delay (no Retry-After header is available on a network failure). -/
def handleTransportError (rc : RetryConfig) (msg : String) (method : String) (attempt : Nat) :
    Except String ℚ :=
  if canRetryTransport rc method attempt then
    .ok (computeDelay rc attempt none)
  else
    .error msg


/-- The parts of a received HTTP response that the transport consumes:
status, the Retry-After header as returned by headers.get (none = absent),
the body text (none models a body whose reading fails), and the full header
mapping. -/
structure HttpResponse where
  status : Nat
  retryAfter : Option String
  bodyText : Option String
  headers : List (String × String)
deriving DecidableEq, Repr

/-- One attempt of the host fetch: a response, or a network-level failure
carrying the underlying error message. -/
inductive FetchResult where
  | ok (r : HttpResponse)
  | err (msg : String)
deriving DecidableEq, Repr

/-- JavaScript property access on a value known not to be null or undefined:
an object field lookup (none = undefined), undefined on every non-object. -/
def jsField : JsVal → String → Option JsVal
  | .obj fields, k => fields.lookup k
  | _, _ => none

/-- JavaScript truthiness of a JSON value (NaN is outside the model). -/
def jsTruthy : JsVal → Bool
  | .null => false
  | .bool b => b
  | .num q => decide (q ≠ 0)
  | .str s => s != ""
  | .arr _ => true
  | .obj _ => true

/-- The responseBody slot of a FoxnoseAPIError: undefined, the parsed JSON
payload, or the raw body text. -/
inductive BodyVal where
  | undef
  | json (v : JsVal)
  | text (s : String)

/-- FoxnoseAPIError from errors.ts, with the fields the constructor stores.
The message is kept as the constructor option after its empty-fallback; the
runtime additionally wraps it into the Error superclass message together
with a status suffix, which carries no extra information and is not
modelled. A message taken from a payload field can be any JSON value at
runtime, hence the JsVal type. -/
structure APIError where
  message : JsVal
  statusCode : Nat
  errorCode : Option JsVal
  detail : Option JsVal
  responseHeaders : List (String × String)
  responseBody : BodyVal

/-- The body-dependent part of HttpTransport.raiseAPIError: the message,
error_code, detail and body values extracted from the response text, before
the empty-message fallback. A read failure (bodyText = none) is swallowed
by the outer catch, leaving the initial values. A body text that parses to
JSON null makes the payload.message access throw a TypeError, which the
inner catch turns into the parse-failure outcome (body = raw text). -/
def apiErrorFields (parse : String → Option JsVal) :
    Option String → JsVal × Option JsVal × Option JsVal × BodyVal
  | none => (.str "", none, none, .undef)
  | some text =>
    if text = "" then (.str text, none, none, .undef)
    else
      match parse text with
      | none => (.str text, none, none, .text text)
      | some payload =>
        if payload.isNull then (.str text, none, none, .text text)
        else
          let m :=
            match jsField payload "message" with
            | some v => if v.isNull then JsVal.str text else v
            | none => JsVal.str text
          (m, jsField payload "error_code", jsField payload "detail", .json payload)

/-- HttpTransport.raiseAPIError: build the FoxnoseAPIError thrown for a
non-retried response with status at least 400. -/
def raiseAPIError (parse : String → Option JsVal) (r : HttpResponse) : APIError :=
  let f := apiErrorFields parse r.bodyText
  ⟨if jsTruthy f.1 then f.1 else .str "API request failed",
   r.status, f.2.1, f.2.2.1, r.headers, f.2.2.2⟩

/-- The decoded payload a successful request resolves with. -/
inductive Decoded where
  | raw (r : HttpResponse)
  | null
  | json (v : JsVal)
  | text (s : String)

/-- HttpTransport.maybeDecodeResponse. When parseJson is false the raw
response handle is returned unconsumed. Otherwise the body is read as text,
with no catch around the read: a failing read (bodyText = none) propagates
as an error. Empty text decodes to null; text that parses decodes to the
parsed value; text that fails to parse is returned as-is. -/
def maybeDecodeResponse (parse : String → Option JsVal) (r : HttpResponse)
    (parseJson : Bool) : Except Unit Decoded :=
  if !parseJson then .ok (.raw r)
  else
    match r.bodyText with
    | none => .error ()
    | some text =>
      if text = "" then .ok .null
      else
        match parse text with
        | some v => .ok (.json v)
        | none => .ok (.text text)

/-- Terminal outcome of HttpTransport.sendWithRetries: the returned
response, a raised FoxnoseAPIError, or a raised FoxnoseTransportError. -/
inductive SendOutcome where
  | success (r : HttpResponse)
  | apiError (e : APIError)
  | transportError (msg : String)

/-- Observable trace of one sendWithRetries run: its outcome, the number of
network calls performed, and the delay computed before each retried
attempt (the source sleeps exactly when the delay is positive). -/
structure SendTrace where
  outcome : SendOutcome
  calls : Nat
  delays : List ℚ

/-- The attempt loop of HttpTransport.sendWithRetries, recursing on the
number of loop iterations still allowed; attempt is the 1-based attempt
counter, and callers maintain attempt + rem = attempts + 1. Exiting with
rem = 0 is the fallthrough after the loop, the defensive transport error.
The response of attempt number a is fetches a. -/
def sendAux (parse : String → Option JsVal) (rc : RetryConfig) (method : String)
    (fetches : Nat → FetchResult) : Nat → Nat → SendTrace
  | _, 0 => ⟨.transportError "All retry attempts exhausted", 0, []⟩
  | attempt, rem + 1 =>
    match fetches attempt with
    | .err msg =>
      match handleTransportError rc msg method attempt with
      | .error m => ⟨.transportError m, 1, []⟩
      | .ok d =>
        let rest := sendAux parse rc method fetches (attempt + 1) rem
        ⟨rest.outcome, rest.calls + 1, d :: rest.delays⟩
    | .ok resp =>
      if 400 ≤ resp.status then
        if shouldRetry rc method resp.status = true ∧ attempt < rc.attempts then
          let d := computeDelay rc attempt resp.retryAfter
          let rest := sendAux parse rc method fetches (attempt + 1) rem
          ⟨rest.outcome, rest.calls + 1, d :: rest.delays⟩
        else ⟨.apiError (raiseAPIError parse resp), 1, []⟩
      else ⟨.success resp, 1, []⟩

/-- HttpTransport.sendWithRetries: run the attempt loop from attempt 1 with
rc.attempts iterations allowed. -/
def sendWithRetries (parse : String → Option JsVal) (rc : RetryConfig) (method : String)
    (fetches : Nat → FetchResult) : SendTrace :=
  sendAux parse rc method fetches 1 rc.attempts

/-- What HttpTransport.request resolves with, or raises. -/
inductive RequestResult where
  | payload (d : Decoded)
  | apiError (e : APIError)
  | transportError (msg : String)
  | readError

/-- Decoding step applied by request to a returned response. -/
def decodeOutcome (parse : String → Option JsVal) (r : HttpResponse) (parseJson : Bool) :
    RequestResult :=
  match maybeDecodeResponse parse r parseJson with
  | .ok d => .payload d
  | .error _ => .readError

/-- HttpTransport.request: sendWithRetries followed by maybeDecodeResponse;
errors raised by the send loop propagate. -/
def requestModel (parse : String → Option JsVal) (rc : RetryConfig) (method : String)
    (fetches : Nat → FetchResult) (parseJson : Bool) : RequestResult :=
  match (sendWithRetries parse rc method fetches).outcome with
  | .success r => decodeOutcome parse r parseJson
  | .apiError e => .apiError e
  | .transportError m => .transportError m

/-- The two exception shapes relevant to empty-token handling: the built-in
JavaScript Error, and FoxnoseAuthError from errors.ts (the AuthError
variant of the three-way taxonomy, distinct from FoxnoseTransportError and
FoxnoseAPIError). -/
inductive ThrownError where
  | plainError (msg : String)
  | foxnoseAuthError (msg : String)
deriving DecidableEq, Repr

/-- JWTAuth.buildHeaders from src/auth/jwt.ts: ask the provider for a token
(modelled by the token value it returns); an empty token throws
new Error with the message below; otherwise the Authorization header is
built from the scheme and the token. -/
def jwtBuildHeaders (scheme token : String) : Except ThrownError (List (String × String)) :=
  if token = "" then .error (.plainError "Token provider returned an empty token")
  else .ok [("Authorization", scheme ++ " " ++ token)]

/-- The wire form of a request body: absent, a JSON text, or raw bytes. -/
inductive BodyInit where
  | empty
  | text (s : String)
  | bytes (b : List UInt8)

/-- The body and headers produced by HttpTransport.buildRequest for one
attempt: the merged header mapping, the byte form handed to the auth
strategy for signing, and the wire form handed to fetch. -/
structure BuiltBody where
  headers : List (String × String)
  signBytes : List UInt8
  bodyInit : BodyInit

/-- The nullish-coalescing header assignment
headers[k] = headers[k] with default v: the mapping is unchanged when the
key is present, extended otherwise. -/
def setDefaultHeader (hs : List (String × String)) (k v : String) : List (String × String) :=
  match hs.lookup k with
  | some _ => hs
  | none => hs ++ [(k, v)]

/-- The body-construction part of HttpTransport.buildRequest (source lines
80 to 91). jsonBody = none models an absent or undefined jsonBody option;
some v models any supplied value, including JSON null. content = none
models an absent content option (note a present but empty byte array is
truthy in JavaScript and is modelled by some of the empty list). stringify
and encode stand for the host JSON.stringify and TextEncoder.encode.
headers0 is the mapping already merged from defaults, User-Agent and
per-call headers. -/
def buildBodyAndHeaders (stringify : JsVal → String) (encode : String → List UInt8)
    (headers0 : List (String × String)) (jsonBody : Option JsVal)
    (content : Option (List UInt8)) : BuiltBody :=
  match jsonBody with
  | some v =>
    let jsonStr := stringify v
    ⟨setDefaultHeader headers0 "Content-Type" "application/json", encode jsonStr, .text jsonStr⟩
  | none =>
    match content with
    | some c => ⟨headers0, c, .bytes c⟩
    | none => ⟨headers0, [], .empty⟩

/-- One item of a batch upsert: its external id (the payload and component
fields do not influence any property claimed and are left out of the
model; the per-item request result is supplied by an oracle indexed by the
item position). -/
structure BatchItem where
  externalId : String
deriving DecidableEq, Repr

/-- One entry of the failed list of a BatchUpsertResult. -/
structure BatchItemError (E : Type) where
  index : Nat
  externalId : String
  error : E
deriving DecidableEq, Repr

/-- The mutable state threaded through batchUpsertResources: the succeeded
and failed accumulators, the completed counter, and the log of arguments
passed to the onProgress callback. -/
structure BatchState (R E : Type) where
  succeeded : List R
  failed : List (BatchItemError E)
  completed : Nat
  progress : List (Nat × Nat)
deriving DecidableEq, Repr

/-- The processItem closure of ManagementClient.batchUpsertResources in the
failFast = false mode: push the request result or the indexed error, then
bump the completed counter and fire onProgress. outcome i is the result of
the PUT request issued for the item at position i. -/
def processItem (outcome : Nat → Except E R) (total : Nat) (st : BatchState R E)
    (p : Nat × BatchItem) : BatchState R E :=
  match outcome p.1 with
  | .ok r =>
    ⟨st.succeeded ++ [r], st.failed, st.completed + 1, st.progress ++ [(st.completed + 1, total)]⟩
  | .error e =>
    ⟨st.succeeded, st.failed ++ [⟨p.1, p.2.externalId, e⟩], st.completed + 1,
     st.progress ++ [(st.completed + 1, total)]⟩

/-- queue.slice windows of size k, structurally recursive on a fuel bound
that callers set to the list length (each step consumes at least one
element, so the fuel never runs out; k = 0 would loop forever in the
source and is excluded by every claim considered). -/
def chunkGo (k : Nat) : Nat → List α → List (List α)
  | _, [] => []
  | 0, _ :: _ => []
  | fuel + 1, x :: xs => (x :: xs.take (k - 1)) :: chunkGo k fuel (xs.drop (k - 1))

/-- The window decomposition of the batch queue. -/
def chunkList (k : Nat) (l : List α) : List (List α) := chunkGo k l.length l

/-- ManagementClient.batchUpsertResources with failFast = false: process the
enumerated items window by window, awaiting a whole window before starting
the next. Within a window the source completes items in request-completion
order; the model serialises each window in list order, which fixes the
order of sibling entries inside one window but no other observable. -/
def batchUpsertResources (outcome : Nat → Except E R) (items : List BatchItem)
    (maxConcurrency : Nat) : BatchState R E :=
  (chunkList maxConcurrency items.enum).foldl
    (fun st win => win.foldl (processItem outcome items.length) st)
    ⟨[], [], 0, []⟩

/-- A two-attempt retry policy retrying GET on 503, used to instantiate the
retry theorems on concrete runs. -/
def retry503 : RetryConfig := ⟨2, 1, [503], ["GET"]⟩

/-- A concrete response schedule: 503 on the first attempt, 200 after. -/
def resp503then200 (j : Nat) : HttpResponse :=
  if j = 1 then ⟨503, none, some "", []⟩ else ⟨200, none, some "", []⟩

/-- Fetch oracle returning resp503then200 without network failures. -/
def fetch503then200 (j : Nat) : FetchResult := .ok (resp503then200 j)

/-- A concrete error payload standing for a parsed JSON error body. -/
def errPayload : JsVal :=
  .obj [("message", .str "boom"), ("error_code", .str "E1"), ("detail", .arr [])]

/-- The body text whose parse is errPayload. -/
def errText : String := "\x7b\"message\":\"boom\",\"error_code\":\"E1\",\"detail\":[]\x7d"

/-- A parse oracle agreeing with JSON.parse on errText. -/
def errParse : String → Option JsVal :=
  fun s => if s = errText then some errPayload else none

/-- A concrete 500 response carrying errText. -/
def errResp : HttpResponse :=
  ⟨500, none, some errText, [("content-type", "application/json")]⟩

/-- Three concrete batch items. -/
def b3Items : List BatchItem := [⟨"a"⟩, ⟨"b"⟩, ⟨"c"⟩]

/-- A concrete per-item request oracle failing the middle item. -/
def b3Outcome : Nat → Except String Nat :=
  fun i => if i = 1 then .error "boom" else .ok (10 * i)

lemma lookup_append_of_none {α β : Type} [BEq α] (l₁ l₂ : List (α × β)) (k : α)
    (h : l₁.lookup k = none) : (l₁ ++ l₂).lookup k = l₂.lookup k := by
  induction l₁ with
  | nil => simp
  | cons p l ih =>
    obtain ⟨a, b⟩ := p
    simp only [List.cons_append, List.lookup] at h ⊢
    cases hk : k == a with
    | true => rw [hk] at h; exact Option.noConfusion h
    | false => rw [hk] at h; exact ih h

lemma lookup_setDefaultHeader (hs : List (String × String)) (k v : String) :
    (setDefaultHeader hs k v).lookup k = some ((hs.lookup k).getD v) := by
  unfold setDefaultHeader
  cases h : hs.lookup k with
  | some w => simp [h]
  | none => simp [h, lookup_append_of_none hs [(k, v)] k h, List.lookup]

lemma sendAux_calls_le (parse : String → Option JsVal) (rc : RetryConfig) (method : String)
    (fetches : Nat → FetchResult) :
    ∀ rem attempt, (sendAux parse rc method fetches attempt rem).calls ≤ rem := by
  intro rem
  induction rem with
  | zero => intro attempt; exact Nat.le_refl 0
  | succ m ih =>
    intro attempt
    cases hf : fetches attempt with
    | err msg =>
      simp only [sendAux, hf]
      cases hh : handleTransportError rc msg method attempt with
      | error m2 => simp
      | ok d => simpa using Nat.succ_le_succ (ih (attempt + 1))
    | ok resp =>
      simp only [sendAux, hf]
      by_cases h4 : 400 ≤ resp.status
      · rw [if_pos h4]
        by_cases hr : shouldRetry rc method resp.status = true ∧ attempt < rc.attempts
        · rw [if_pos hr]
          simpa using Nat.succ_le_succ (ih (attempt + 1))
        · rw [if_neg hr]; simp
      · rw [if_neg h4]; simp

lemma sendAux_first_success (parse : String → Option JsVal) (rc : RetryConfig) (method : String)
    (fetches : Nat → FetchResult) (r : Nat → HttpResponse)
    (hm : rc.methods.contains (jsToUpper method) = true)
    (i : Nat) (hiN : i ≤ rc.attempts)
    (hresp : ∀ j, 1 ≤ j → j ≤ i → fetches j = .ok (r j))
    (hbefore : ∀ j, 1 ≤ j → j < i →
      rc.statusCodes.contains (r j).status = true ∧ 400 ≤ (r j).status)
    (hsucc : (r i).status < 400) :
    ∀ rem attempt, attempt + rem = rc.attempts + 1 → 1 ≤ attempt → attempt ≤ i →
      (sendAux parse rc method fetches attempt rem).outcome = .success (r i) ∧
      (sendAux parse rc method fetches attempt rem).calls = i + 1 - attempt := by
  intro rem
  induction rem with
  | zero => intro attempt hsum h1 hle; omega
  | succ m ih =>
    intro attempt hsum h1 hle
    have hf : fetches attempt = .ok (r attempt) := hresp attempt h1 hle
    by_cases hai : attempt = i
    · subst hai
      simp only [sendAux, hf]
      rw [if_neg (show ¬(400 ≤ (r attempt).status) from by omega)]
      exact ⟨rfl, show 1 = attempt + 1 - attempt from by omega⟩
    · have hlt : attempt < i := lt_of_le_of_ne hle hai
      obtain ⟨hcode, hge⟩ := hbefore attempt h1 hlt
      have hsr : shouldRetry rc method (r attempt).status = true := by
        unfold shouldRetry
        rw [hm, hcode]
        rfl
      simp only [sendAux, hf]
      rw [if_pos hge, if_pos ⟨hsr, by omega⟩]
      have step := ih (attempt + 1) (by omega) (by omega) (by omega)
      refine ⟨step.1, ?_⟩
      show (sendAux parse rc method fetches (attempt + 1) m).calls + 1 = i + 1 - attempt
      rw [step.2]
      omega

/-- C1: for a retry-eligible method under a policy with at least one
attempt, across response sequences whose pre-success statuses all lie in
the retryable status set, the transport performs at most attempts network
calls for any response sequence whatsoever; and when the first success
(status below 400) arrives at attempt i within the budget, the loop stops
there: exactly i network calls are made, the returned response is that of
attempt i, and request resolves with the decoded payload of that
response. -/
theorem retryableMethod_first_success (parse : String → Option JsVal) (rc : RetryConfig)
    (method : String) (fetches : Nat → FetchResult) (r : Nat → HttpResponse) (parseJson : Bool)
    (hN : 1 ≤ rc.attempts)
    (hm : rc.methods.contains (jsToUpper method) = true)
    (i : Nat) (hi1 : 1 ≤ i) (hiN : i ≤ rc.attempts)
    (hresp : ∀ j, 1 ≤ j → j ≤ i → fetches j = .ok (r j))
    (hbefore : ∀ j, 1 ≤ j → j < i →
      rc.statusCodes.contains (r j).status = true ∧ 400 ≤ (r j).status)
    (hsucc : (r i).status < 400) :
    (∀ g : Nat → FetchResult, (sendWithRetries parse rc method g).calls ≤ rc.attempts) ∧
    (sendWithRetries parse rc method fetches).calls = i ∧
    (sendWithRetries parse rc method fetches).outcome = .success (r i) ∧
    requestModel parse rc method fetches parseJson = decodeOutcome parse (r i) parseJson := by
  have key := sendAux_first_success parse rc method fetches r hm i hiN hresp hbefore hsucc
    rc.attempts 1 (by omega) (by omega) hi1
  have kout : (sendWithRetries parse rc method fetches).outcome = .success (r i) := key.1
  refine ⟨fun g => sendAux_calls_le parse rc method g rc.attempts 1,
    by rw [sendWithRetries, key.2]; omega,
    kout, ?_⟩
  rw [requestModel, kout]

theorem retryableMethod_first_success_witness :
    1 ≤ retry503.attempts ∧
    retry503.methods.contains (jsToUpper "GET") = true ∧
    1 ≤ 2 ∧ 2 ≤ retry503.attempts ∧
    (∀ j, 1 ≤ j → j ≤ 2 → fetch503then200 j = .ok (resp503then200 j)) ∧
    (∀ j, 1 ≤ j → j < 2 →
      retry503.statusCodes.contains (resp503then200 j).status = true ∧
      400 ≤ (resp503then200 j).status) ∧
    (resp503then200 2).status < 400 ∧
    ((sendWithRetries (fun _ => none) retry503 "GET" fetch503then200).calls = 2 ∧
     (sendWithRetries (fun _ => none) retry503 "GET" fetch503then200).outcome =
       .success (resp503then200 2) ∧
     requestModel (fun _ => none) retry503 "GET" fetch503then200 true =
       decodeOutcome (fun _ => none) (resp503then200 2) true) :=
  have hbef : ∀ j, 1 ≤ j → j < 2 →
      retry503.statusCodes.contains (resp503then200 j).status = true ∧
      400 ≤ (resp503then200 j).status := fun j h1 h2 => by
    have hj : j = 1 := by omega
    subst hj
    exact ⟨by decide, by decide⟩
  have h := retryableMethod_first_success (fun _ => none) retry503 "GET" fetch503then200
    resp503then200 true (by decide) (by decide) 2 (by decide) (by decide)
    (fun j h1 h2 => rfl) hbef (by decide)
  ⟨by decide, by decide, by decide, by decide, fun j h1 h2 => rfl, hbef,
   by decide, h.2.1, h.2.2.1, h.2.2.2⟩

/-- C2: for a method that is not retry-eligible (its uppercased form is not
among the policy entries), a first response with any status of 400 or more
makes the transport raise the FoxnoseAPIError built from that response
after exactly one network call and with no delay, whatever the status code,
including statuses in the retryable set. -/
theorem nonRetryableMethod_raises_immediately (parse : String → Option JsVal)
    (rc : RetryConfig) (method : String) (fetches : Nat → FetchResult) (r : HttpResponse)
    (hN : 1 ≤ rc.attempts)
    (hm : rc.methods.contains (jsToUpper method) = false)
    (h1 : fetches 1 = .ok r)
    (hs : 400 ≤ r.status) :
    sendWithRetries parse rc method fetches = ⟨.apiError (raiseAPIError parse r), 1, []⟩ := by
  obtain ⟨n, hn⟩ : ∃ n, rc.attempts = n + 1 := ⟨rc.attempts - 1, by omega⟩
  have hsr : shouldRetry rc method r.status = false := by
    unfold shouldRetry
    rw [hm]
    rfl
  simp [sendWithRetries, hn, sendAux, h1, hsr, hs]

theorem nonRetryableMethod_raises_immediately_witness :
    1 ≤ DEFAULT_RETRY_CONFIG.attempts ∧
    DEFAULT_RETRY_CONFIG.methods.contains (jsToUpper "POST") = false ∧
    (fun _ => FetchResult.ok ⟨500, none, some "", []⟩) 1 =
      FetchResult.ok ⟨500, none, some "", []⟩ ∧
    400 ≤ (HttpResponse.mk 500 none (some "") []).status ∧
    sendWithRetries (fun _ => none) DEFAULT_RETRY_CONFIG "POST"
        (fun _ => .ok ⟨500, none, some "", []⟩) =
      ⟨.apiError (raiseAPIError (fun _ => none) ⟨500, none, some "", []⟩), 1, []⟩ :=
  ⟨by decide, by decide, rfl, by decide,
   nonRetryableMethod_raises_immediately _ _ _ _ _ (by decide) (by decide) rfl (by decide)⟩

/-- C3 counterexample: a Retry-After header that is present with the empty
string as value is unparseable as a float, yet the computed delay is the
exponential backoff (500 ms under the default policy at attempt 1), not
zero: the JavaScript truthiness test on the header value treats an empty
string like an absent header. -/
theorem computeDelay_empty_header_counterexample :
    jsParseFloat "" = none ∧
    computeDelay DEFAULT_RETRY_CONFIG 1 (some "") = 500 ∧
    computeDelay DEFAULT_RETRY_CONFIG 1 (some "") ≠ 0 := by
  refine ⟨by decide, ?_, ?_⟩ <;>
    norm_num [computeDelay, backoffDelay, DEFAULT_RETRY_CONFIG]

/-- C3 (amended): for a retried attempt a, a present non-empty Retry-After
value parseable as a float v gives delay v * 1000 ms; a present non-empty
unparseable value gives delay 0; an absent header, or one present with the
empty string as value, gives backoffFactor * 2 ^ max(a - 1, 0) * 1000 ms. -/
theorem computeDelay_cases (rc : RetryConfig) (attempt : Nat) :
    (∀ s v, s ≠ "" → jsParseFloat s = some v → computeDelay rc attempt (some s) = v * 1000) ∧
    (∀ s, s ≠ "" → jsParseFloat s = none → computeDelay rc attempt (some s) = 0) ∧
    computeDelay rc attempt none = rc.backoffFactor * 2 ^ (attempt - 1) * 1000 ∧
    computeDelay rc attempt (some "") = rc.backoffFactor * 2 ^ (attempt - 1) * 1000 := by
  refine ⟨fun s v hs hv => ?_, fun s hs hv => ?_, rfl, by simp [computeDelay, backoffDelay]⟩ <;>
    simp [computeDelay, hs, hv]

theorem computeDelay_cases_witness :
    ("2" ≠ "" ∧ jsParseFloat "2" = some (ParsedFloat.val ⟨false, 2, 0, 0, false, 0⟩) ∧
      computeDelay DEFAULT_RETRY_CONFIG 2 (some "2") =
        ParsedFloat.val ⟨false, 2, 0, 0, false, 0⟩ * 1000) ∧
    ("soon" ≠ "" ∧ jsParseFloat "soon" = none ∧
      computeDelay DEFAULT_RETRY_CONFIG 2 (some "soon") = 0) ∧
    computeDelay DEFAULT_RETRY_CONFIG 2 none =
      DEFAULT_RETRY_CONFIG.backoffFactor * 2 ^ (2 - 1) * 1000 :=
  ⟨⟨by decide, rfl, (computeDelay_cases DEFAULT_RETRY_CONFIG 2).1 "2" _ (by decide) rfl⟩,
   ⟨by decide, by decide,
    (computeDelay_cases DEFAULT_RETRY_CONFIG 2).2.1 "soon" (by decide) (by decide)⟩,
   (computeDelay_cases DEFAULT_RETRY_CONFIG 2).2.2.1⟩

/-- C5 counterexample: with the method string held fixed, changing only the
letter case of the policy entry from GET to get flips retry eligibility in
both the HTTP-error decision (shouldRetry) and the network-failure decision
(the canRetry test of handleTransportError): policy entries are compared
verbatim against the uppercased method, so eligibility does depend on the
case of the entries. -/
theorem retryEligibility_entry_case_counterexample :
    shouldRetry ⟨3, 1, [503], ["get"]⟩ "get" 503 = false ∧
    shouldRetry ⟨3, 1, [503], ["GET"]⟩ "get" 503 = true ∧
    canRetryTransport ⟨3, 1, [503], ["get"]⟩ "get" 1 = false ∧
    canRetryTransport ⟨3, 1, [503], ["GET"]⟩ "get" 1 = true := by decide

/-- C5 (amended): retry eligibility is case-insensitive in the method
argument, which is uppercased before comparison, for both the HTTP-error
and the network-failure retry decisions; the entries of the
retryable-methods set are matched verbatim against the uppercased method,
so eligibility does depend on the case of the entries (only uppercase
entries can match). -/
theorem retryEligibility_method_case_insensitive (rc : RetryConfig) (m1 m2 : String)
    (status attempt : Nat) (h : jsToUpper m1 = jsToUpper m2) :
    shouldRetry rc m1 status = shouldRetry rc m2 status ∧
    canRetryTransport rc m1 attempt = canRetryTransport rc m2 attempt := by
  constructor <;> simp [shouldRetry, canRetryTransport, h]

theorem retryEligibility_method_case_insensitive_witness :
    jsToUpper "get" = jsToUpper "GeT" ∧
    shouldRetry DEFAULT_RETRY_CONFIG "get" 503 = shouldRetry DEFAULT_RETRY_CONFIG "GeT" 503 ∧
    canRetryTransport DEFAULT_RETRY_CONFIG "get" 1 =
      canRetryTransport DEFAULT_RETRY_CONFIG "GeT" 1 :=
  ⟨by decide,
   (retryEligibility_method_case_insensitive DEFAULT_RETRY_CONFIG "get" "GeT" 503 1
      (by decide)).1,
   (retryEligibility_method_case_insensitive DEFAULT_RETRY_CONFIG "get" "GeT" 503 1
      (by decide)).2⟩

/-- C6 counterexample: maybeDecodeResponse reads the body with no catch
around the read, so for a success response whose body cannot be read the
read failure propagates: decoding of a received success response can
raise. -/
theorem maybeDecode_read_failure_counterexample :
    (HttpResponse.mk 200 none none []).status < 400 ∧
    maybeDecodeResponse (fun _ => none) ⟨200, none, none, []⟩ true = .error () :=
  ⟨by decide, rfl⟩

/-- C6 (amended): decoding never raises a parse error. If JSON decoding is
suppressed the raw response handle is returned unconsumed; otherwise,
provided the body text can be read: empty text yields null, text that
parses as JSON yields the parsed value, and non-empty text that fails to
parse yields the raw text itself rather than an error. Only a failure to
read the body text at all propagates. -/
theorem maybeDecode_cases (parse : String → Option JsVal) (r : HttpResponse) :
    maybeDecodeResponse parse r false = .ok (.raw r) ∧
    (∀ t, r.bodyText = some t →
      (t = "" → maybeDecodeResponse parse r true = .ok .null) ∧
      (∀ v, t ≠ "" → parse t = some v → maybeDecodeResponse parse r true = .ok (.json v)) ∧
      (t ≠ "" → parse t = none → maybeDecodeResponse parse r true = .ok (.text t)) ∧
      ∃ d, maybeDecodeResponse parse r true = .ok d) := by
  refine ⟨rfl, fun t ht => ⟨fun he => ?_, fun v hne hv => ?_, fun hne hv => ?_, ?_⟩⟩
  · simp [maybeDecodeResponse, ht, he]
  · simp [maybeDecodeResponse, ht, hne, hv]
  · simp [maybeDecodeResponse, ht, hne, hv]
  · by_cases he : t = ""
    · exact ⟨.null, by simp [maybeDecodeResponse, ht, he]⟩
    · cases hv : parse t with
      | some v => exact ⟨.json v, by simp [maybeDecodeResponse, ht, he, hv]⟩
      | none => exact ⟨.text t, by simp [maybeDecodeResponse, ht, he, hv]⟩

theorem maybeDecode_cases_witness :
    (HttpResponse.mk 200 none (some "[]") []).bodyText = some "[]" ∧
    "[]" ≠ "" ∧
    (fun t => if t = "[]" then some (JsVal.arr []) else none) "[]" = some (JsVal.arr []) ∧
    maybeDecodeResponse (fun t => if t = "[]" then some (JsVal.arr []) else none)
      ⟨200, none, some "[]", []⟩ true = .ok (.json (.arr [])) :=
  ⟨rfl, by decide, rfl,
   (((maybeDecode_cases (fun t => if t = "[]" then some (JsVal.arr []) else none)
        ⟨200, none, some "[]", []⟩).2 "[]" rfl).2.1 (.arr []) (by decide) rfl)⟩

/-- C7 counterexample: a 500 response whose body text is the four characters
null parses as JSON (to the JSON null value), yet the raised error's body is
the raw text, not the full parsed payload the claim promises: inside the
try block the payload.message access on null throws a TypeError, and the
catch records the raw text as the body. -/
theorem raiseAPIError_null_body_counterexample :
    (fun t => if t = "null" then some JsVal.null else none) "null" = some JsVal.null ∧
    (raiseAPIError (fun t => if t = "null" then some JsVal.null else none)
        ⟨500, none, some "null", []⟩).responseBody = .text "null" ∧
    (BodyVal.text "null" ≠ BodyVal.json .null) :=
  ⟨rfl, rfl, fun h => BodyVal.noConfusion h⟩

/-- C7 (amended): for every non-retried response with status at least 400,
the raised error always carries the status code and all response headers,
and its message is never a falsy value (an empty message falls back to the
fixed text API request failed). If the body text parses as JSON to a
non-null payload, the body is the full parsed payload, the error code and
detail are the payload fields error_code and detail, and the message is the
payload field message when that field is present, non-null and truthy, or
the raw text when the field is absent or null. If the body is empty or
cannot be read at all the error is still raised, with an undefined body.
If parsing fails, or parses to JSON null, the body is the raw text. -/
theorem raiseAPIError_fields (parse : String → Option JsVal) (r : HttpResponse) :
    (raiseAPIError parse r).statusCode = r.status ∧
    (raiseAPIError parse r).responseHeaders = r.headers ∧
    jsTruthy (raiseAPIError parse r).message = true ∧
    (r.bodyText = none →
      raiseAPIError parse r =
        ⟨.str "API request failed", r.status, none, none, r.headers, .undef⟩) ∧
    (r.bodyText = some "" →
      raiseAPIError parse r =
        ⟨.str "API request failed", r.status, none, none, r.headers, .undef⟩) ∧
    (∀ t, r.bodyText = some t → t ≠ "" → parse t = none →
      raiseAPIError parse r = ⟨.str t, r.status, none, none, r.headers, .text t⟩) ∧
    (∀ t, r.bodyText = some t → t ≠ "" → parse t = some .null →
      raiseAPIError parse r = ⟨.str t, r.status, none, none, r.headers, .text t⟩) ∧
    (∀ t p, r.bodyText = some t → t ≠ "" → parse t = some p → p.isNull = false →
      (raiseAPIError parse r).responseBody = .json p ∧
      (raiseAPIError parse r).errorCode = jsField p "error_code" ∧
      (raiseAPIError parse r).detail = jsField p "detail" ∧
      (∀ m, jsField p "message" = some m → m.isNull = false → jsTruthy m = true →
        (raiseAPIError parse r).message = m) ∧
      ((jsField p "message" = none ∨ jsField p "message" = some .null) →
        (raiseAPIError parse r).message = .str t)) := by
  have hfall : ∀ v : JsVal,
      jsTruthy (if jsTruthy v = true then v else .str "API request failed") = true := by
    intro v
    by_cases h : jsTruthy v = true
    · rwa [if_pos h]
    · rw [if_neg h]; rfl
  have hstr : ∀ t : String, t ≠ "" → jsTruthy (.str t) = true := by
    intro t ht
    simp [jsTruthy, ht]
  refine ⟨rfl, rfl, hfall _, ?_, ?_, ?_, ?_, ?_⟩
  · intro h
    simp only [raiseAPIError, h, apiErrorFields]
    rfl
  · intro h
    simp only [raiseAPIError, h, apiErrorFields]
    rfl
  · intro t ht hne hp
    simp only [raiseAPIError, ht, apiErrorFields, if_neg hne, hp]
    rw [if_pos (hstr t hne)]
  · intro t ht hne hp
    simp only [raiseAPIError, ht, apiErrorFields, if_neg hne, hp]
    simp [JsVal.isNull, hstr t hne]
  · intro t p ht hne hp hpn
    simp only [raiseAPIError, ht, apiErrorFields, if_neg hne, hp, hpn]
    refine ⟨rfl, rfl, rfl, ?_, ?_⟩
    · intro m hm hmn hmt
      simp only [hm, hmn]
      simp [hmt]
    · intro hcase
      rcases hcase with hm | hm
      · simp only [hm]
        simp [hstr t hne]
      · simp only [hm, JsVal.isNull]
        simp [hstr t hne]

theorem raiseAPIError_fields_witness :
    errResp.bodyText = some errText ∧ errText ≠ "" ∧ errParse errText = some errPayload ∧
    errPayload.isNull = false ∧ jsField errPayload "message" = some (.str "boom") ∧
    (JsVal.str "boom").isNull = false ∧ jsTruthy (.str "boom") = true ∧
    ((raiseAPIError errParse errResp).statusCode = errResp.status ∧
     (raiseAPIError errParse errResp).responseHeaders = errResp.headers ∧
     (raiseAPIError errParse errResp).responseBody = .json errPayload ∧
     (raiseAPIError errParse errResp).errorCode = jsField errPayload "error_code" ∧
     (raiseAPIError errParse errResp).detail = jsField errPayload "detail" ∧
     (raiseAPIError errParse errResp).message = .str "boom") :=
  have h := raiseAPIError_fields errParse errResp
  have h8 := h.2.2.2.2.2.2.2 errText errPayload rfl (by decide) rfl rfl
  ⟨rfl, by decide, rfl, rfl, rfl, rfl, rfl,
   h.1, h.2.1, h8.1, h8.2.1, h8.2.2.1, h8.2.2.2.1 (.str "boom") rfl rfl rfl⟩

/-- C8: the code evaluated at the failing input, an empty token from the
provider. JWTAuth.buildHeaders throws the built-in Error, which is not the
FoxnoseAuthError variant of the error taxonomy, although errors.ts
documents FoxnoseAuthError as the error raised when authentication headers
cannot be generated and SecureKeyAuth does use it for bad key material. -/
theorem jwt_empty_token_plain_error :
    jwtBuildHeaders "Bearer" "" =
      .error (.plainError "Token provider returned an empty token") ∧
    (Except.error (.plainError "Token provider returned an empty token") :
        Except ThrownError (List (String × String))) ≠
      .error (.foxnoseAuthError "Token provider returned an empty token") := by
  refine ⟨rfl, fun h => ?_⟩
  simp at h

/-- C10: jsonBody = null counts as a supplied JSON body: the wire body is
the literal text null, Content-Type is defaulted to application/json
unless some Content-Type key is already present, and any raw content is
ignored; the raw content branch is taken only when jsonBody is exactly
undefined (absent), in which case no Content-Type is forced, and with no
content either the body is empty. -/
theorem jsonBody_null_vs_undefined (stringify : JsVal → String) (encode : String → List UInt8)
    (headers0 : List (String × String)) (content : Option (List UInt8))
    (hnull : stringify JsVal.null = "null") :
    buildBodyAndHeaders stringify encode headers0 (some .null) content =
      ⟨setDefaultHeader headers0 "Content-Type" "application/json", encode "null",
       .text "null"⟩ ∧
    (∀ v c1 c2, buildBodyAndHeaders stringify encode headers0 (some v) c1 =
        buildBodyAndHeaders stringify encode headers0 (some v) c2) ∧
    (buildBodyAndHeaders stringify encode headers0 (some .null) content).headers.lookup
        "Content-Type" = some ((headers0.lookup "Content-Type").getD "application/json") ∧
    (∀ c, buildBodyAndHeaders stringify encode headers0 none (some c) =
        ⟨headers0, c, .bytes c⟩) ∧
    buildBodyAndHeaders stringify encode headers0 none none = ⟨headers0, [], .empty⟩ := by
  refine ⟨by simp [buildBodyAndHeaders, hnull], fun v c1 c2 => rfl, ?_, fun c => rfl, rfl⟩
  simp [buildBodyAndHeaders, hnull, lookup_setDefaultHeader]

theorem jsonBody_null_vs_undefined_witness :
    (fun _ : JsVal => "null") JsVal.null = "null" ∧
    buildBodyAndHeaders (fun _ => "null") (fun _ => []) [("Accept", "text/plain")]
        (some .null) (some [104, 105]) =
      ⟨setDefaultHeader [("Accept", "text/plain")] "Content-Type" "application/json",
       (fun _ : String => ([] : List UInt8)) "null", .text "null"⟩ ∧
    (∀ c, buildBodyAndHeaders (fun _ => "null") (fun _ => []) [("Accept", "text/plain")]
        none (some c) = ⟨[("Accept", "text/plain")], c, .bytes c⟩) :=
  ⟨rfl,
   (jsonBody_null_vs_undefined (fun _ => "null") (fun _ => []) [("Accept", "text/plain")]
      (some [104, 105]) rfl).1,
   (jsonBody_null_vs_undefined (fun _ => "null") (fun _ => []) [("Accept", "text/plain")]
      (some [104, 105]) rfl).2.2.2.1⟩

lemma foldl_win {α β : Type} (f : β → α → β) :
    ∀ (ws : List (List α)) (b : β),
    ws.foldl (fun st w => w.foldl f st) b = ws.flatten.foldl f b := by
  intro ws
  induction ws with
  | nil => intro b; rfl
  | cons w ws ih => intro b; simp [List.foldl_append, ih]

lemma chunkGo_flatten {α : Type} (k : Nat) :
    ∀ (fuel : Nat) (l : List α), l.length ≤ fuel → (chunkGo k fuel l).flatten = l := by
  intro fuel
  induction fuel with
  | zero =>
    intro l hl
    cases l with
    | nil => rfl
    | cons x xs => simp at hl
  | succ m ih =>
    intro l hl
    cases l with
    | nil => rfl
    | cons x xs =>
      simp only [chunkGo, List.flatten_cons]
      rw [ih (xs.drop (k - 1)) (by simp only [List.length_drop]; simp at hl; omega)]
      simp [List.take_append_drop]

lemma chunkGo_mem_length {α : Type} (k : Nat) (hk : 1 ≤ k) :
    ∀ (fuel : Nat) (l : List α) (w : List α), w ∈ chunkGo k fuel l → w.length ≤ k := by
  intro fuel
  induction fuel with
  | zero =>
    intro l w hw
    cases l with
    | nil => simp [chunkGo] at hw
    | cons x xs => simp [chunkGo] at hw
  | succ m ih =>
    intro l w hw
    cases l with
    | nil => simp [chunkGo] at hw
    | cons x xs =>
      simp only [chunkGo, List.mem_cons] at hw
      rcases hw with h | h
      · subst h
        have hmin := min_le_left (k - 1) xs.length
        simp only [List.length_cons, List.length_take]
        omega
      · exact ih _ _ h

lemma foldl_processItem {R E : Type} (outcome : Nat → Except E R) (total : Nat) :
    ∀ (q : List (Nat × BatchItem)) (st : BatchState R E),
    q.foldl (processItem outcome total) st =
      ⟨st.succeeded ++ q.filterMap (fun p => (outcome p.1).toOption),
       st.failed ++ q.filterMap (fun p =>
         match outcome p.1 with
         | .ok _ => none
         | .error e => some ⟨p.1, p.2.externalId, e⟩),
       st.completed + q.length,
       st.progress ++ (List.range' (st.completed + 1) q.length).map (fun c => (c, total))⟩ := by
  intro q
  induction q with
  | nil => intro st; simp
  | cons p q ih =>
    intro st
    rw [List.foldl_cons, ih]
    cases ho : outcome p.1 with
    | ok res =>
      simp only [processItem, ho, List.filterMap_cons, Except.toOption, List.length_cons,
        List.range'_succ, List.map_cons, BatchState.mk.injEq]
      refine ⟨by simp, by simp, by omega, by simp⟩
    | error e =>
      simp only [processItem, ho, List.filterMap_cons, Except.toOption, List.length_cons,
        List.range'_succ, List.map_cons, BatchState.mk.injEq]
      refine ⟨by simp, by simp, by omega, by simp⟩

lemma filterMap_partition_length {R E : Type} (outcome : Nat → Except E R) :
    ∀ q : List (Nat × BatchItem),
      (q.filterMap (fun p => (outcome p.1).toOption)).length +
      (q.filterMap (fun p =>
        match outcome p.1 with
        | .ok _ => none
        | .error e => some (⟨p.1, p.2.externalId, e⟩ : BatchItemError E))).length = q.length := by
  intro q
  induction q with
  | nil => rfl
  | cons p q ih =>
    cases ho : outcome p.1 with
    | ok res =>
      simp only [Except.toOption] at ih
      simp only [List.filterMap_cons, ho, Except.toOption, List.length_cons]
      omega
    | error e =>
      simp only [Except.toOption] at ih
      simp only [List.filterMap_cons, ho, Except.toOption, List.length_cons]
      omega

/-- C9: batchUpsertResources without fail-fast processes the enumerated
items in consecutive windows of at most maxConcurrency (the windows
concatenate back to the whole queue), every input item lands in exactly one
of the succeeded or failed lists (their lengths sum to the input length,
and the two lists are exactly the successes and the failures of the
per-item requests), failed entries keep the original index and external id
of their item, one failure removes nothing else from either list, and the
progress callback fires exactly once per completed item with the counts
1, 2, ..., total. -/
theorem batchUpsert_spec {R E : Type} (outcome : Nat → Except E R) (items : List BatchItem)
    (k : Nat) (hk : 1 ≤ k) :
    (∀ w ∈ chunkList k items.enum, w.length ≤ k) ∧
    (chunkList k items.enum).flatten = items.enum ∧
    (batchUpsertResources outcome items k).succeeded =
      items.enum.filterMap (fun p => (outcome p.1).toOption) ∧
    (batchUpsertResources outcome items k).failed =
      items.enum.filterMap (fun p =>
        match outcome p.1 with
        | .ok _ => none
        | .error e => some ⟨p.1, p.2.externalId, e⟩) ∧
    (batchUpsertResources outcome items k).succeeded.length +
      (batchUpsertResources outcome items k).failed.length = items.length ∧
    (batchUpsertResources outcome items k).completed = items.length ∧
    (batchUpsertResources outcome items k).progress =
      (List.range' 1 items.length).map (fun c => (c, items.length)) := by
  have hflat : (chunkList k items.enum).flatten = items.enum :=
    chunkGo_flatten k items.enum.length items.enum le_rfl
  have hrun : batchUpsertResources outcome items k =
      items.enum.foldl (processItem outcome items.length) ⟨[], [], 0, []⟩ := by
    rw [batchUpsertResources, foldl_win, hflat]
  rw [hrun, foldl_processItem]
  refine ⟨fun w hw => chunkGo_mem_length k hk items.enum.length items.enum w hw, hflat,
    by simp, by simp, ?_, by simp [List.enum_length], by simp [List.enum_length]⟩
  simpa [List.enum_length] using filterMap_partition_length outcome items.enum

theorem batchUpsert_spec_witness :
    1 ≤ 2 ∧
    ((∀ w ∈ chunkList 2 b3Items.enum, w.length ≤ 2) ∧
     (chunkList 2 b3Items.enum).flatten = b3Items.enum ∧
     (batchUpsertResources b3Outcome b3Items 2).succeeded =
       b3Items.enum.filterMap (fun p => (b3Outcome p.1).toOption) ∧
     (batchUpsertResources b3Outcome b3Items 2).failed =
       b3Items.enum.filterMap (fun p =>
         match b3Outcome p.1 with
         | .ok _ => none
         | .error e => some ⟨p.1, p.2.externalId, e⟩) ∧
     (batchUpsertResources b3Outcome b3Items 2).succeeded.length +
       (batchUpsertResources b3Outcome b3Items 2).failed.length = b3Items.length ∧
     (batchUpsertResources b3Outcome b3Items 2).completed = b3Items.length ∧
     (batchUpsertResources b3Outcome b3Items 2).progress =
       (List.range' 1 b3Items.length).map (fun c => (c, b3Items.length))) :=
  ⟨by decide, batchUpsert_spec b3Outcome b3Items 2 (by decide)⟩

end Foxnose
